import Mathlib

/-!
# Verification of the order-management backend

A shallow embedding of the order-management repository: the relational
state (users, products, orders, order items), the implemented CRUD
services (`userService.ts`, `productService.ts`), the controllers'
request-layer behaviour (`userController.ts`, `productController.ts`),
and the order-placement workflow, which the repository leaves as a TODO
and which is therefore modelled from the specification.

Money amounts (`NUMERIC(10,2)` columns) are modelled as integer cents;
`INT` columns as `Int` (the schema places no sign constraint on
`stock`); `SERIAL` ids as `Nat`.  Timestamps carry no logic in any of
the verified operations and are omitted.
-/

namespace OMS

/-- A row of the `users` table (`001_create_users.sql`): `id SERIAL`,
`name TEXT NOT NULL`, `email TEXT UNIQUE NOT NULL`. -/
structure UserRow where
  id : Nat
  name : String
  email : String
  deriving Repr, DecidableEq

/-- A row of the `products` table (`002_create_products.sql`): `id SERIAL`,
`name TEXT NOT NULL`, `price NUMERIC(10,2) NOT NULL`, `stock INT NOT NULL`.
Note the schema has no `CHECK (stock >= 0)` and no `UNIQUE` on `name`. -/
structure ProductRow where
  id : Nat
  name : String
  price : Int
  stock : Int
  deriving Repr, DecidableEq

/-- A row of the `orders` table (`003_create_orders.sql`): `id SERIAL`,
`user_id INT NOT NULL REFERENCES users(id)`, `total_amount NUMERIC(10,2)
NOT NULL`, `status TEXT DEFAULT 'pending'`. -/
structure OrderRow where
  id : Nat
  user_id : Nat
  total_amount : Int
  status : String
  deriving Repr, DecidableEq

/-- A row of the `order_items` table (`004_create_order_items.sql`, per the
`OrderItem` interface in `types/index.ts`): `id`, `order_id`, `product_id`,
`quantity`, `price` (the unit-price snapshot taken at order time). -/
structure OrderItemRow where
  id : Nat
  order_id : Nat
  product_id : Nat
  quantity : Int
  price : Int
  deriving Repr, DecidableEq

/-- The database state visible to the verified operations: the four tables,
plus the idempotency-key registry the specification requires for the order
workflow (key ↦ order id). -/
structure DBState where
  users : List UserRow
  products : List ProductRow
  orders : List OrderRow
  order_items : List OrderItemRow
  idempotency : List (String × Nat)
  deriving Repr, DecidableEq

/-- The empty database, the state right after the migrations run. -/
def emptyDB : DBState := ⟨[], [], [], [], []⟩

/-! ## Column constraints of the `products` schema

`002_create_products.sql`, transcribed column by column, so that the absence
of a `UNIQUE` constraint on `name` is a checkable fact. -/

/-- The column constraints that appear in the migration files. -/
inductive ColumnConstraint where
  | primaryKey
  | notNull
  | uniqueCol
  | hasDefault
  deriving Repr, DecidableEq

/-- A column of a `CREATE TABLE` statement: its name and its constraints. -/
structure ColumnDef where
  name : String
  constraints : List ColumnConstraint
  deriving Repr, DecidableEq

/-- The `products` table schema from `002_create_products.sql`:
`id SERIAL PRIMARY KEY, name TEXT NOT NULL, price NUMERIC(10,2) NOT NULL,
stock INT NOT NULL, created_at TIMESTAMP DEFAULT NOW()`. -/
def productsTableColumns : List ColumnDef :=
  [⟨"id", [.primaryKey]⟩,
   ⟨"name", [.notNull]⟩,
   ⟨"price", [.notNull]⟩,
   ⟨"stock", [.notNull]⟩,
   ⟨"created_at", [.hasDefault]⟩]

/-! ## Implemented services (`userService.ts`, `productService.ts`)

Each service either returns a row or throws an `Error` carrying only a
message string; we embed a throwing path as `Except String`.  A call that
throws performs no write, so it returns the input state unchanged. -/

/-- `userService.userExists` (userService.ts:208-221): `SELECT 1 FROM users
WHERE id = ${id}` and test for a nonempty result. -/
def userExists (st : DBState) (id : Nat) : Bool :=
  st.users.any (fun u => u.id == id)

/-- The next id a `SERIAL` column hands out, modelled as one more than the
largest id present. -/
def nextId (ids : List Nat) : Nat := ids.foldr max 0 + 1

/-- The request body of `POST /products` (`CreateProductRequest` in
`types/index.ts`): `name`, `price`, `stock`. -/
structure CreateProductRequest where
  name : String
  price : Int
  stock : Int
  deriving Repr, DecidableEq

/-- `productService.createProduct` (productService.ts:10-41): select any
product with the requested name; if one exists throw `Name ... is already in
use`, otherwise insert the row with the client-supplied `name`, `price` and
`stock` — no check on the sign of `stock` anywhere on this path. -/
def createProduct (st : DBState) (d : CreateProductRequest) :
    DBState × Except String ProductRow :=
  if st.products.any (fun p => p.name == d.name) then
    (st, .error ("Failed to create product: Name " ++ d.name ++ " is already in use"))
  else
    let row : ProductRow :=
      { id := nextId (st.products.map (·.id)), name := d.name,
        price := d.price, stock := d.stock }
    ({ st with products := st.products ++ [row] }, .ok row)

/-- `productService.getProductById` (productService.ts:88-103): the first row
with the given id, or `null`. -/
def getProductById (st : DBState) (id : Nat) : Option ProductRow :=
  st.products.find? (fun p => p.id == id)

/-- The request body of `PUT /products/:id` (`UpdateProductRequest`): every
field optional. -/
structure UpdateProductRequest where
  name : Option String
  price : Option Int
  stock : Option Int
  deriving Repr, DecidableEq

/-- The duplicate-name guard of `productService.updateProduct`
(productService.ts:124-132): JavaScript truthiness means the check runs only
when `updateData.name` is present and nonempty, differs from the current
name, and some other product already uses it. -/
def productNameTaken (st : DBState) (id : Nat) (p : ProductRow)
    (u : UpdateProductRequest) : Bool :=
  match u.name with
  | none => false
  | some n => !(n == "") && !(n == p.name) &&
      st.products.any (fun q => q.name == n && !(q.id == id))

/-- `productService.updateProduct` (productService.ts:112-156): look the
product up; throw `not found` if absent; run the duplicate-name guard; then
`UPDATE products SET name = ${updateData.name ?? product.name}, price =
${updateData.price ?? product.price}, stock = ${updateData.stock ??
product.stock} WHERE id = ${id}` — each omitted field written back from the
row that was read. -/
def updateProduct (st : DBState) (id : Nat) (u : UpdateProductRequest) :
    DBState × Except String ProductRow :=
  match getProductById st id with
  | none =>
      (st, .error ("Failed to update product: Product with ID not found"))
  | some p =>
      if productNameTaken st id p u then
        (st, .error ("Failed to update product: Name is already in use"))
      else
        let newName := u.name.getD p.name
        let newPrice := u.price.getD p.price
        let newStock := u.stock.getD p.stock
        ({ st with products := st.products.map (fun q =>
            if q.id == id then
              { q with name := newName, price := newPrice, stock := newStock }
            else q) },
         .ok { p with name := newName, price := newPrice, stock := newStock })

/-- `userService.getUserById` (userService.ts:46-61). -/
def getUserById (st : DBState) (id : Nat) : Option UserRow :=
  st.users.find? (fun u => u.id == id)

/-- The request body of `PUT /users/:id` (`UpdateUserRequest`): every field
optional. -/
structure UpdateUserRequest where
  name : Option String
  email : Option String
  deriving Repr, DecidableEq

/-- The duplicate-email guard of `userService.updateUser`
(userService.ts:141-149), with the same truthiness semantics as the product
name guard. -/
def userEmailTaken (st : DBState) (id : Nat) (w : UserRow)
    (u : UpdateUserRequest) : Bool :=
  match u.email with
  | none => false
  | some e => !(e == "") && !(e == w.email) &&
      st.users.any (fun q => q.email == e && !(q.id == id))

/-- `userService.updateUser` (userService.ts:132-172): look the user up;
throw `not found` if absent; run the duplicate-email guard; then `UPDATE
users SET name = ${updateData.name ?? user.name}, email = ${updateData.email
?? user.email} WHERE id = ${id}`. -/
def updateUser (st : DBState) (id : Nat) (u : UpdateUserRequest) :
    DBState × Except String UserRow :=
  match getUserById st id with
  | none =>
      (st, .error ("Failed to update user: User with ID not found"))
  | some w =>
      if userEmailTaken st id w u then
        (st, .error ("Failed to update user: Email is already in use"))
      else
        let newName := u.name.getD w.name
        let newEmail := u.email.getD w.email
        ({ st with users := st.users.map (fun q =>
            if q.id == id then { q with name := newName, email := newEmail }
            else q) },
         .ok { w with name := newName, email := newEmail })

/-! ## Request layer (`userController.ts`, `productController.ts`)

The controllers parse query strings with JavaScript `parseInt`, clamp the
pagination parameters, and map thrown errors to HTTP status codes by
substring-matching the error message. -/

/-- JavaScript `parseInt(s)` in radix 10: skip leading whitespace, read an
optional sign and then the longest run of leading decimal digits; `none`
models `NaN` (no digit found, including the missing-parameter case where the
argument stringifies to `"undefined"`). -/
def jsParseInt (s : String) : Option Int :=
  let cs := s.data.dropWhile (fun c =>
    c == ' ' || c == '\t' || c == '\n' || c == '\r')
  let signRest : Int × List Char :=
    match cs with
    | '-' :: r => (-1, r)
    | '+' :: r => (1, r)
    | r => (1, r)
  let ds := signRest.2.takeWhile Char.isDigit
  if ds.isEmpty then none
  else some (signRest.1 * (ds.foldl (fun a c => a * 10 + (c.toNat - 48)) 0 : Nat))

/-- JavaScript `x || d` applied to a `parseInt` result: the default replaces
both `NaN` and `0` (both falsy). -/
def orFalsy (v : Option Int) (d : Int) : Int :=
  match v with
  | none => d
  | some n => if n == 0 then d else n

/-- The page computed by `getAllUsers` (userController.ts:92) and
`getAllProducts` (productController.ts:47):
`Math.max(1, parseInt(req.query.page as string) || 1)`; a missing query
parameter is `none`. -/
def pageParam (q : Option String) : Int :=
  max 1 (orFalsy (q.bind jsParseInt) 1)

/-- The limit computed by `getAllUsers` (userController.ts:93) and
`getAllProducts` (productController.ts:48):
`Math.min(100, Math.max(1, parseInt(req.query.limit as string) || 10))`. -/
def limitParam (q : Option String) : Int :=
  min 100 (max 1 (orFalsy (q.bind jsParseInt) 10))

/-- The offset the list services compute from the clamped parameters
(`(page - 1) * limit`, userService.ts:74 / productService.ts:54). -/
def listOffset (page limit : Int) : Int := (page - 1) * limit

/-- `True` when `pat` occurs contiguously in `s` (JavaScript
`String.prototype.includes`). -/
def strIncludes (s pat : String) : Bool :=
  aux s.data pat.data
where
  /-- Does `pat` occur in `cs`, checking each start position in turn? -/
  aux : List Char → List Char → Bool
    | _, [] => true
    | [], _ :: _ => false
    | c :: rest, p :: ps =>
        ((c :: rest).take (p :: ps).length == p :: ps) || aux rest (p :: ps)

/-- The status code of the update/delete controllers' catch blocks
(userController.ts:159-167 and 195-203, productController.ts:159-167 and
195-203): `message.includes('not found') ? 404 : 400`. -/
def mutationStatusCode (message : String) : Nat :=
  if strIncludes message "not found" then 404 else 400

/-- The status code of the list controllers' catch blocks
(userController.ts:111-118, productController.ts:66-73): always 500,
whatever the message. -/
def listStatusCode (_ : String) : Nat := 500

/-- The status code of the create controllers' catch blocks
(userController.ts:31-38, productController.ts:31-38): always 400,
whatever the message — a create failure is never mapped to 404 even when
its message contains `not found`. -/
def createStatusCode (_ : String) : Nat := 400

/-! ## Order-placement workflow

The repository leaves `orderService.ts` / `orderController.ts` unimplemented
(README "Next Steps", spec §9); only `CreateOrderRequest` in
`types/index.ts` and the `orders` / `order_items` migrations exist.  The
workflow below is therefore modelled from the specification (§4.1, §6, §7):
validation before any write, idempotency-key lookup, per-product stock check
against a price/stock snapshot, server-side total, and an all-or-nothing
commit.  Duplicate product lines in one request are merged (§4.1's
recommended policy). -/

/-- One requested order line (`OrderItemInput` in `types/index.ts`):
`product_id`, `quantity`. -/
structure OrderItemInput where
  product_id : Nat
  quantity : Int
  deriving Repr, DecidableEq

/-- The order-placement request (`CreateOrderRequest` in `types/index.ts`
plus the optional idempotency key of spec §4.1/§6). -/
structure CreateOrderRequest where
  user_id : Nat
  items : List OrderItemInput
  idempotencyKey : Option String
  deriving Repr, DecidableEq

/-- The workflow's typed failure (spec §7 taxonomy).  `transientError` is in
the type because §7 names it; the serialized model never produces it. -/
inductive PlaceOrderError where
  | validationError (message : String)
  | notFoundError (product_id : Nat)
  | insufficientStockError (product_id : Nat) (available : Int)
  | transientError (message : String)
  deriving Repr, DecidableEq

/-- The total quantity a request orders for one product (summed across
duplicate lines). -/
def sumQty (items : List OrderItemInput) (pid : Nat) : Int :=
  ((items.filter (fun i => i.product_id == pid)).map (·.quantity)).sum

/-- Modelled from the spec: §4.1's merge policy for duplicate product lines
— one line per distinct `product_id`, quantities summed. -/
def mergeItems (items : List OrderItemInput) : List OrderItemInput :=
  ((items.map (·.product_id)).dedup).map (fun pid => ⟨pid, sumQty items pid⟩)

/-- Modelled from the spec: §4.1 step 2 — for each (merged) line, read the
product's current price and stock; a missing product aborts with
`notFoundError`, a quantity above the available stock aborts with
`insufficientStockError`; otherwise return the price snapshots. -/
def snapshotItems (st : DBState) :
    List OrderItemInput → Except PlaceOrderError (List (Nat × Int × Int))
  | [] => .ok []
  | i :: rest =>
      match getProductById st i.product_id with
      | none => .error (.notFoundError i.product_id)
      | some p =>
          if p.stock < i.quantity then
            .error (.insufficientStockError i.product_id p.stock)
          else
            match snapshotItems st rest with
            | .error e => .error e
            | .ok tail => .ok ((i.product_id, i.quantity, p.price) :: tail)

/-- Modelled from the spec: §4.1 step 3 — `total_amount` is the sum over the
lines of snapshot price times quantity. -/
def totalAmount (snaps : List (Nat × Int × Int)) : Int :=
  (snaps.map (fun s => s.2.2 * s.2.1)).sum

/-- Decrement the stock of product `pid` by `q`. -/
def decrementStock (products : List ProductRow) (pid : Nat) (q : Int) :
    List ProductRow :=
  products.map (fun p => if p.id == pid then { p with stock := p.stock - q } else p)

/-- Modelled from the spec: §4.1 step 4 — decrement each line's product by
the ordered quantity. -/
def applyDecrements (products : List ProductRow) :
    List (Nat × Int × Int) → List ProductRow
  | [] => products
  | s :: rest => applyDecrements (decrementStock products s.1 s.2.1) rest

/-- Modelled from the spec: §4.1 step 4 — one `order_items` row per line,
carrying the snapshot price, with consecutive fresh ids. -/
def mkOrderItemRows (base oid : Nat) :
    List (Nat × Int × Int) → List OrderItemRow
  | [] => []
  | s :: rest => ⟨base, oid, s.1, s.2.1, s.2.2⟩ :: mkOrderItemRows (base + 1) oid rest

/-- Modelled from the spec: §4.1's idempotency lookup — the order already
recorded for a supplied key, if any. -/
def idemLookup (st : DBState) : Option String → Option OrderRow
  | none => none
  | some k =>
      match st.idempotency.find? (fun e => e.1 == k) with
      | none => none
      | some e => st.orders.find? (fun o => o.id == e.2)

/-- Modelled from the spec: the order-placement workflow `placeOrder`
(§4.1), absent from the repository's source.  In order: the §4.1
preconditions (non-empty `items`, positive quantities, existing user — any
failure is a `validationError` with no write attempted); the idempotency
lookup (a hit returns the stored order and its items unchanged); then, in
one transactional scope, the merged lines are checked against live stock and
snapshotted, the server-side total computed, and the order row, item rows
and stock decrements committed together.  Every failure returns the input
state untouched — the model's rendering of §4.1 step 5's full rollback. -/
def placeOrder (st : DBState) (req : CreateOrderRequest) :
    DBState × Except PlaceOrderError (OrderRow × List OrderItemRow) :=
  if req.items.isEmpty then
    (st, .error (.validationError "items must be non-empty"))
  else if req.items.any (fun i => i.quantity ≤ 0) then
    (st, .error (.validationError "every quantity must be a positive integer"))
  else if !userExists st req.user_id then
    (st, .error (.validationError "userId must reference an existing user"))
  else
    match idemLookup st req.idempotencyKey with
    | some o => (st, .ok (o, st.order_items.filter (fun r => r.order_id == o.id)))
    | none =>
        match snapshotItems st (mergeItems req.items) with
        | .error e => (st, .error e)
        | .ok snaps =>
            let oid := nextId (st.orders.map (·.id))
            let order : OrderRow :=
              ⟨oid, req.user_id, totalAmount snaps, "pending"⟩
            let rows := mkOrderItemRows (nextId (st.order_items.map (·.id))) oid snaps
            ({ st with
                products := applyDecrements st.products snaps,
                orders := st.orders ++ [order],
                order_items := st.order_items ++ rows,
                idempotency :=
                  match req.idempotencyKey with
                  | some k => st.idempotency ++ [(k, oid)]
                  | none => st.idempotency },
             .ok (order, rows))

/-- Modelled from the spec: §5's serialized execution of concurrent calls —
row locks held to commit make conflicting placements take effect one after
another, so a batch of concurrent requests is a sequence of `placeOrder`
steps.  Returns the final state and the per-request outcomes. -/
def runOrders (st : DBState) :
    List CreateOrderRequest →
      DBState × List (Except PlaceOrderError (OrderRow × List OrderItemRow))
  | [] => (st, [])
  | r :: rs =>
      let step := placeOrder st r
      let rest := runOrders step.1 rs
      (rest.1, step.2 :: rest.2)

/-- Is an outcome a success? -/
def isOk (r : Except PlaceOrderError (OrderRow × List OrderItemRow)) : Bool :=
  match r with
  | .ok _ => true
  | .error _ => false

/-- Is an outcome an `insufficientStockError`? -/
def isInsufficient (r : Except PlaceOrderError (OrderRow × List OrderItemRow)) :
    Bool :=
  match r with
  | .error (.insufficientStockError _ _) => true
  | _ => false

/-- The single-line request the concurrency property is about: one unit of
one product. -/
def singleItemReq (uid pid : Nat) : CreateOrderRequest :=
  ⟨uid, [⟨pid, 1⟩], none⟩

/-! ## Shared demo states for witnesses -/

/-- A one-user, one-product state: user 1 "alice", product 1 "Widget" at
price 250 with stock 5. -/
def demoDB : DBState :=
  ⟨[⟨1, "alice", "alice@example.com"⟩], [⟨1, "Widget", 250, 5⟩], [], [], []⟩

/-! ## Helper lemmas -/

/-- `find?` only looks at the predicate's values on the list. -/
theorem find?_pred_congr {α : Type} (l : List α) (p q : α → Bool)
    (h : ∀ a ∈ l, p a = q a) : l.find? p = l.find? q := by
  induction l with
  | nil => rfl
  | cons a t ih =>
      simp only [List.find?]
      rw [h a (List.mem_cons_self a t)]
      cases hq : q a
      · exact ih (fun b hb => h b (List.mem_cons_of_mem a hb))
      · rfl

/-! ## Theorems -/

/-- Claim C8: whatever the `page` and `limit` query strings contain
(missing, non-numeric, zero, negative, or huge), the clamping in
`getAllUsers` (userController.ts:92-93) and `getAllProducts`
(productController.ts:47-48) — both compute exactly `pageParam` /
`limitParam` — yields a page of at least 1 and a limit between 1 and 100,
so the offset `(page - 1) * limit` is non-negative and at most 100 rows
are requested. -/
theorem pagination_params_clamped (pq lq : Option String) :
    1 ≤ pageParam pq ∧ 1 ≤ limitParam lq ∧ limitParam lq ≤ 100 ∧
    0 ≤ listOffset (pageParam pq) (limitParam lq) := by
  have hp : 1 ≤ pageParam pq := le_max_left 1 _
  have hl1 : 1 ≤ limitParam lq :=
    le_min (by norm_num) (le_max_left 1 _)
  have hl2 : limitParam lq ≤ 100 := min_le_left _ _
  exact ⟨hp, hl1, hl2, mul_nonneg (by omega) (by omega)⟩

/-- Claim C5, counterexample: a transient failure (connection loss during
an update) surfaces through the update controller's catch block with only
its message string, and `message.includes('not found') ? 404 : 400`
(userController.ts:159-167) maps it to 400 — not to the 503 the claim
requires for transient failures. -/
theorem transient_error_maps_to_400 :
    mutationStatusCode "Failed to update user: connection terminated unexpectedly" = 400 ∧
    (400 : Nat) ≠ 503 := by
  exact ⟨by decide, by decide⟩

/-- Claim C5, amended: failures carry no machine-readable kind — the
services throw plain `Error` values with only a human-readable message —
and the request layer classifies by message: the update/delete controllers
map a message containing `not found` to 404 and every other message to 400
(so insufficient-stock and transient failures could only ever surface as
400), the create controllers map every failure to 400 unconditionally
(even a message containing `not found`), and the list controllers map
every failure to 500; no failure is ever mapped to 409 or 503. -/
theorem error_status_mapping (m : String) :
    (mutationStatusCode m = 404 ∨ mutationStatusCode m = 400) ∧
    (mutationStatusCode m = 404 ↔ strIncludes m "not found" = true) ∧
    mutationStatusCode m ≠ 409 ∧ mutationStatusCode m ≠ 503 ∧
    createStatusCode m = 400 ∧
    listStatusCode m = 500 := by
  unfold mutationStatusCode createStatusCode listStatusCode
  by_cases h : strIncludes m "not found" = true
  · simp [h]
  · simp [h]

/-- Claim C10: creating a product whose name equals an existing product's
name throws (`Name ... is already in use`, productService.ts:13-21) and
performs no insert — the state is returned unchanged — and this
name-uniqueness rule lives only in application code: in the
`002_create_products.sql` schema, the `name` column carries no `UNIQUE`
constraint. -/
theorem createProduct_duplicate_name_rejected (st : DBState)
    (d : CreateProductRequest) (p : ProductRow)
    (hmem : p ∈ st.products) (hname : p.name = d.name) :
    (∃ msg, createProduct st d = (st, Except.error msg)) ∧
    ∀ c ∈ productsTableColumns, c.name = "name" →
      ColumnConstraint.uniqueCol ∉ c.constraints := by
  have hany : st.products.any (fun q => q.name == d.name) = true :=
    List.any_eq_true.mpr ⟨p, hmem, by simp [hname]⟩
  refine ⟨⟨"Failed to create product: Name " ++ d.name ++ " is already in use", ?_⟩,
    by decide⟩
  unfold createProduct
  rw [if_pos hany]

/-- Witness for C10: creating a second "Widget" in `demoDB` is rejected
with the state unchanged. -/
theorem createProduct_duplicate_name_rejected_witness :
    (∃ msg, createProduct demoDB ⟨"Widget", 100, 3⟩ = (demoDB, Except.error msg)) ∧
    ∀ c ∈ productsTableColumns, c.name = "name" →
      ColumnConstraint.uniqueCol ∉ c.constraints :=
  createProduct_duplicate_name_rejected demoDB ⟨"Widget", 100, 3⟩
    ⟨1, "Widget", 250, 5⟩ (by simp [demoDB]) rfl

/-- Claim C2, counterexample: from the reachable empty database,
`createProduct` with a client-supplied `stock` of `-5` succeeds — neither
the controller's truthiness check (productController.ts:14, which `-5`
passes) nor the service (productService.ts:10-41) nor the schema
(`stock INT NOT NULL`, no `CHECK`) blocks it — and persists a product row
whose stock is negative. -/
theorem createProduct_persists_negative_stock :
    (createProduct emptyDB ⟨"Gadget", 999, -5⟩).1.products =
      [⟨1, "Gadget", 999, -5⟩] ∧
    (createProduct emptyDB ⟨"Gadget", 999, -5⟩).2 =
      Except.ok ⟨1, "Gadget", 999, -5⟩ ∧
    ((-5 : Int) < 0) := by
  exact ⟨by decide, rfl, by decide⟩

/-- Claim C9: in a successful `updateProduct` (productService.ts:134-149)
and `updateUser` (userService.ts:151-159), every field the update request
leaves undefined keeps its prior persisted value — the SQL writes
`${updateData.field ?? current.field}` back for each omitted field — and
the returned row is exactly the row now persisted under that id. -/
theorem update_omitted_fields_preserved
    (st : DBState) (pid uid : Nat)
    (up : UpdateProductRequest) (uu : UpdateUserRequest)
    (p : ProductRow) (w : UserRow)
    (stp stu : DBState) (rp : ProductRow) (ru : UserRow)
    (hp0 : getProductById st pid = some p)
    (hp : updateProduct st pid up = (stp, Except.ok rp))
    (hw0 : getUserById st uid = some w)
    (hu : updateUser st uid uu = (stu, Except.ok ru)) :
    (up.name = none → rp.name = p.name) ∧
    (up.price = none → rp.price = p.price) ∧
    (up.stock = none → rp.stock = p.stock) ∧
    (uu.name = none → ru.name = w.name) ∧
    (uu.email = none → ru.email = w.email) ∧
    getProductById stp pid = some rp ∧
    getUserById stu uid = some ru := by
  have hp0' : st.products.find? (fun q => q.id == pid) = some p := hp0
  have hw0' : st.users.find? (fun q => q.id == uid) = some w := hw0
  have hpid : p.id = pid := by simpa using List.find?_some hp0'
  have hwid : w.id = uid := by simpa using List.find?_some hw0'
  unfold updateProduct at hp
  simp only [hp0] at hp
  unfold updateUser at hu
  simp only [hw0] at hu
  split at hp
  · exact absurd hp (by simp)
  · split at hu
    · exact absurd hu (by simp)
    · simp only [Prod.mk.injEq, Except.ok.injEq] at hp hu
      obtain ⟨hstp, hrp⟩ := hp
      obtain ⟨hstu, hru⟩ := hu
      subst hstp hrp hstu hru
      refine ⟨?_, ?_, ?_, ?_, ?_, ?_, ?_⟩
      · intro h; simp [h]
      · intro h; simp [h]
      · intro h; simp [h]
      · intro h; simp [h]
      · intro h; simp [h]
      · unfold getProductById at hp0 ⊢
        dsimp only
        rw [List.find?_map]
        rw [find?_pred_congr _ _ (fun a => a.id == pid)
          (by intro a _; by_cases h : a.id = pid <;> simp [h])]
        rw [hp0]
        simp [hpid]
      · unfold getUserById at hw0 ⊢
        dsimp only
        rw [List.find?_map]
        rw [find?_pred_congr _ _ (fun a => a.id == uid)
          (by intro a _; by_cases h : a.id = uid <;> simp [h])]
        rw [hw0]
        simp [hwid]

/-- The state after updating only product 1's price in `demoDB`. -/
def demoDBPriceUpdated : DBState :=
  ⟨[⟨1, "alice", "alice@example.com"⟩], [⟨1, "Widget", 300, 5⟩], [], [], []⟩

/-- The state after updating only user 1's name in `demoDB`. -/
def demoDBNameUpdated : DBState :=
  ⟨[⟨1, "al", "alice@example.com"⟩], [⟨1, "Widget", 250, 5⟩], [], [], []⟩

/-- Witness for C9: in `demoDB`, updating only product 1's price and only
user 1's name keeps the omitted fields. -/
theorem update_omitted_fields_preserved_witness :
    ((none : Option String) = none → "Widget" = "Widget") ∧
    ((some (300 : Int) : Option Int) = none → (300 : Int) = 250) ∧
    ((none : Option Int) = none → (5 : Int) = 5) ∧
    ((some "al" : Option String) = none → "al" = "alice") ∧
    ((none : Option String) = none →
      "alice@example.com" = "alice@example.com") ∧
    getProductById demoDBPriceUpdated 1 = some ⟨1, "Widget", 300, 5⟩ ∧
    getUserById demoDBNameUpdated 1 = some ⟨1, "al", "alice@example.com"⟩ :=
  update_omitted_fields_preserved demoDB 1 1 ⟨none, some 300, none⟩
    ⟨some "al", none⟩ ⟨1, "Widget", 250, 5⟩ ⟨1, "alice", "alice@example.com"⟩
    demoDBPriceUpdated demoDBNameUpdated
    ⟨1, "Widget", 300, 5⟩ ⟨1, "al", "alice@example.com"⟩
    (by decide) rfl (by decide) rfl

/-! ## Case analysis of `placeOrder` -/

/-- The idempotency-registry rows a fresh successful placement appends. -/
def idemEntries (k : Option String) (oid : Nat) : List (String × Nat) :=
  match k with
  | some key => [(key, oid)]
  | none => []

/-- The state a fresh (non-replay) successful placement commits: order row,
item rows and stock decrements together, plus the idempotency record. -/
def commitState (st : DBState) (req : CreateOrderRequest)
    (snaps : List (Nat × Int × Int)) (o : OrderRow)
    (rows : List OrderItemRow) : DBState :=
  { st with
      products := applyDecrements st.products snaps,
      orders := st.orders ++ [o],
      order_items := st.order_items ++ rows,
      idempotency := st.idempotency ++ idemEntries req.idempotencyKey o.id }

/-- Every `placeOrder` call is one of: a failure returning the input state
untouched; an idempotent replay returning the stored order with the state
untouched; or a fresh commit of exactly the order row, item rows, stock
decrements and idempotency record. -/
theorem placeOrder_split (st : DBState) (req : CreateOrderRequest) :
    (∃ e, placeOrder st req = (st, Except.error e)) ∨
    (∃ o, idemLookup st req.idempotencyKey = some o ∧
      placeOrder st req =
        (st, Except.ok (o, st.order_items.filter (fun r => r.order_id == o.id)))) ∨
    (∃ snaps o rows,
      snapshotItems st (mergeItems req.items) = Except.ok snaps ∧
      o = ⟨nextId (st.orders.map (·.id)), req.user_id, totalAmount snaps, "pending"⟩ ∧
      rows = mkOrderItemRows (nextId (st.order_items.map (·.id)))
        (nextId (st.orders.map (·.id))) snaps ∧
      placeOrder st req = (commitState st req snaps o rows, Except.ok (o, rows))) := by
  unfold placeOrder
  split
  · exact Or.inl ⟨_, rfl⟩
  split
  · exact Or.inl ⟨_, rfl⟩
  split
  · exact Or.inl ⟨_, rfl⟩
  split
  · rename_i o ho
    exact Or.inr (Or.inl ⟨o, ho, rfl⟩)
  split
  · exact Or.inl ⟨_, rfl⟩
  · rename_i ho snaps hsnaps
    refine Or.inr (Or.inr ⟨snaps, _, _, hsnaps, rfl, rfl, ?_⟩)
    unfold commitState idemEntries
    cases req.idempotencyKey <;> simp

/-- `placeOrder` never touches the `users` table. -/
theorem placeOrder_users_unchanged (st : DBState) (req : CreateOrderRequest) :
    (placeOrder st req).1.users = st.users := by
  rcases placeOrder_split st req with ⟨e, he⟩ | ⟨o, _, ho⟩ |
    ⟨snaps, o, rows, _, _, _, heq⟩
  · rw [he]
  · rw [ho]
  · rw [heq]; rfl

/-- Claim C1: `placeOrder` is all-or-nothing — every failure returns a
typed `PlaceOrderError` with the database state exactly as before the call,
and every success either replays an existing order (changing nothing) or
persists the order row, all its item rows and all stock decrements
together.  (The workflow is absent from the repository source; modelled
from spec §4.1/§5.) -/
theorem placeOrder_all_or_nothing (st : DBState) (req : CreateOrderRequest) :
    (∀ st' e, placeOrder st req = (st', Except.error e) → st' = st) ∧
    (∀ st' o rows, placeOrder st req = (st', Except.ok (o, rows)) →
      st' = st ∨
      (∃ snaps, snapshotItems st (mergeItems req.items) = Except.ok snaps ∧
        st'.orders = st.orders ++ [o] ∧
        st'.order_items = st.order_items ++ rows ∧
        st'.products = applyDecrements st.products snaps ∧
        st'.users = st.users)) := by
  rcases placeOrder_split st req with ⟨e, he⟩ | ⟨o, _, ho⟩ |
    ⟨snaps, o, rows, hs, hoeq, hreq, heq⟩
  · constructor
    · intro st' e' h
      have hh := he.symm.trans h
      exact (congrArg Prod.fst hh).symm
    · intro st' o' rows' h
      have hh := he.symm.trans h
      exact absurd (congrArg Prod.snd hh) (by simp)
  · constructor
    · intro st' e' h
      have hh := ho.symm.trans h
      exact absurd (congrArg Prod.snd hh) (by simp)
    · intro st' o' rows' h
      have hh := ho.symm.trans h
      exact Or.inl (congrArg Prod.fst hh).symm
  · constructor
    · intro st' e' h
      have hh := heq.symm.trans h
      exact absurd (congrArg Prod.snd hh) (by simp)
    · intro st' o' rows' h
      have hh := heq.symm.trans h
      simp only [Prod.mk.injEq, Except.ok.injEq] at hh
      obtain ⟨hst, ho', hr'⟩ := hh
      subst hst ho' hr'
      exact Or.inr ⟨snaps, hs, rfl, rfl, rfl, rfl⟩

/-- Witness for C1: a concrete failing call (ordering 9 widgets when only
5 are in stock) leaves `demoDB` exactly as it was. -/
theorem placeOrder_all_or_nothing_witness : demoDB = demoDB :=
  (placeOrder_all_or_nothing demoDB ⟨1, [⟨1, 9⟩], none⟩).1 demoDB
    (.insufficientStockError 1 5) rfl

/-- Claim C4: a request with empty `items`, or with any non-positive
quantity, or whose `userId` references no existing user, yields a
`validationError` and the database state is returned untouched — no Order,
OrderItem or Product row is written or changed.  (Modelled from spec §4.1's
preconditions, checked before any write.) -/
theorem placeOrder_validation_no_mutation (st : DBState)
    (req : CreateOrderRequest)
    (h : req.items = [] ∨ (∃ i ∈ req.items, i.quantity ≤ 0) ∨
         userExists st req.user_id = false) :
    ∃ msg, placeOrder st req =
      (st, Except.error (.validationError msg)) := by
  by_cases h1 : req.items.isEmpty
  · exact ⟨"items must be non-empty", by unfold placeOrder; rw [if_pos h1]⟩
  · by_cases h2 : req.items.any (fun i => i.quantity ≤ 0)
    · exact ⟨"every quantity must be a positive integer", by
        unfold placeOrder; rw [if_neg h1, if_pos h2]⟩
    · have h3 : userExists st req.user_id = false := by
        rcases h with h | h | h
        · exact absurd (by simp [h]) h1
        · rcases h with ⟨i, hi, hq⟩
          exact absurd (List.any_eq_true.mpr ⟨i, hi, by simpa using hq⟩) h2
        · exact h
      exact ⟨"userId must reference an existing user", by
        unfold placeOrder; rw [if_neg h1, if_neg h2, if_pos (by simp [h3])]⟩

/-- Witness for C4: the spec's own example — `items=[]` — against
`demoDB`. -/
theorem placeOrder_validation_no_mutation_witness :
    ∃ msg, placeOrder demoDB ⟨1, [], none⟩ =
      (demoDB, Except.error (.validationError msg)) :=
  placeOrder_validation_no_mutation demoDB ⟨1, [], none⟩ (Or.inl rfl)

/-- Claim C6: replaying a valid request whose idempotency key already has a
recorded order returns that original order (with its stored item rows)
unchanged, and the state — orders, order items, product stocks — is
returned exactly as it was: no duplicate rows, no further stock mutation.
(Modelled from spec §4.1's idempotency clause.) -/
theorem placeOrder_idempotent_replay (st : DBState)
    (req : CreateOrderRequest) (k : String) (o : OrderRow)
    (hk : req.idempotencyKey = some k)
    (hne : req.items.isEmpty = false)
    (hq : ∀ i ∈ req.items, 0 < i.quantity)
    (hu : userExists st req.user_id = true)
    (ho : idemLookup st (some k) = some o) :
    placeOrder st req =
      (st, Except.ok (o, st.order_items.filter (fun r => r.order_id == o.id))) := by
  have h2 : req.items.any (fun i => i.quantity ≤ 0) = false := by
    rw [List.any_eq_false]
    intro i hi
    simpa using hq i hi
  unfold placeOrder
  rw [if_neg (by simp [hne]), if_neg (by simp [h2]), if_neg (by simp [hu]),
    hk, ho]

/-- A state in which order 7 (3 widgets at 250 each) was already placed
under idempotency key `key-1`, its stock decrement included. -/
def replayDB : DBState :=
  ⟨[⟨1, "alice", "alice@example.com"⟩], [⟨1, "Widget", 250, 2⟩],
   [⟨7, 1, 750, "pending"⟩], [⟨3, 7, 1, 3, 250⟩], [("key-1", 7)]⟩

/-- Witness for C6: replaying the `key-1` request against `replayDB`
returns order 7 with its stored item row, and the state untouched — even
though the requested quantity 3 now exceeds the remaining stock 2. -/
theorem placeOrder_idempotent_replay_witness :
    placeOrder replayDB ⟨1, [⟨1, 3⟩], some "key-1"⟩ =
      (replayDB, Except.ok (⟨7, 1, 750, "pending"⟩, [⟨3, 7, 1, 3, 250⟩])) :=
  placeOrder_idempotent_replay replayDB ⟨1, [⟨1, 3⟩], some "key-1"⟩ "key-1"
    ⟨7, 1, 750, "pending"⟩ rfl rfl (by decide) rfl rfl

/-! ## Snapshot and total lemmas -/

/-- Every snapshot returned by a successful `snapshotItems` pass carries an
existing product's price, and its quantity is within that product's
stock. -/
theorem snapshotItems_ok_mem (st : DBState) (its : List OrderItemInput) :
    ∀ snaps, snapshotItems st its = Except.ok snaps →
      ∀ s ∈ snaps, ∃ p, getProductById st s.1 = some p ∧
        s.2.2 = p.price ∧ s.2.1 ≤ p.stock := by
  induction its with
  | nil =>
      intro snaps h s hs
      simp only [snapshotItems, Except.ok.injEq] at h
      subst h
      simp at hs
  | cons i rest ih =>
      intro snaps h s hs
      unfold snapshotItems at h
      cases hp : getProductById st i.product_id with
      | none => simp only [hp] at h; exact absurd h (by simp)
      | some p =>
          simp only [hp] at h
          split at h
          · exact absurd h (by simp)
          · rename_i hstock
            cases ht : snapshotItems st rest with
            | error e => simp only [ht] at h; exact absurd h (by simp)
            | ok tail =>
                simp only [ht] at h
                simp only [Except.ok.injEq] at h
                subst h
                rcases List.mem_cons.mp hs with hs | hs
                · subst hs
                  exact ⟨p, hp, rfl, by show i.quantity ≤ p.stock; omega⟩
                · exact ih tail ht s hs

/-- A successful `snapshotItems` pass keeps the items' product ids, in
order. -/
theorem snapshotItems_fst (st : DBState) (its : List OrderItemInput) :
    ∀ snaps, snapshotItems st its = Except.ok snaps →
      snaps.map (·.1) = its.map (·.product_id) := by
  induction its with
  | nil =>
      intro snaps h
      simp only [snapshotItems, Except.ok.injEq] at h
      subst h
      rfl
  | cons i rest ih =>
      intro snaps h
      unfold snapshotItems at h
      cases hp : getProductById st i.product_id with
      | none => simp only [hp] at h; exact absurd h (by simp)
      | some p =>
          simp only [hp] at h
          split at h
          · exact absurd h (by simp)
          · cases ht : snapshotItems st rest with
            | error e => simp only [ht] at h; exact absurd h (by simp)
            | ok tail =>
                simp only [ht] at h
                simp only [Except.ok.injEq] at h
                subst h
                simp only [List.map_cons]
                rw [ih tail ht]

/-- The server-side total equals the sum of `price * quantity` over the
item rows built from the snapshots. -/
theorem mkOrderItemRows_total (oid : Nat) (snaps : List (Nat × Int × Int)) :
    ∀ base, ((mkOrderItemRows base oid snaps).map
      (fun r => r.price * r.quantity)).sum = totalAmount snaps := by
  induction snaps with
  | nil => intro base; rfl
  | cons s rest ih =>
      intro base
      simp only [mkOrderItemRows, List.map_cons, List.sum_cons, totalAmount] at ih ⊢
      rw [ih]

/-- Every item row built from the snapshots carries some snapshot's product
id, quantity and price. -/
theorem mkOrderItemRows_mem (oid : Nat) (snaps : List (Nat × Int × Int)) :
    ∀ base r, r ∈ mkOrderItemRows base oid snaps →
      ∃ s ∈ snaps, r.product_id = s.1 ∧ r.quantity = s.2.1 ∧ r.price = s.2.2 := by
  induction snaps with
  | nil => intro base r hr; simp [mkOrderItemRows] at hr
  | cons s rest ih =>
      intro base r hr
      rcases List.mem_cons.mp hr with h | h
      · subst h
        exact ⟨s, List.mem_cons_self s rest, rfl, rfl, rfl⟩
      · obtain ⟨t, ht, h1, h2, h3⟩ := ih (base + 1) r h
        exact ⟨t, List.mem_cons_of_mem s ht, h1, h2, h3⟩

/-- Claim C3: the order a fresh successful `placeOrder` creates has
`total_amount` equal to the sum over its item rows of `price * quantity`,
and each item row's price is the referenced product's price in the state
at order time — the server computes the total from live prices, and the
request type (`CreateOrderRequest`: `user_id`, `items`, optional key)
carries no client total at all.  (Modelled from spec §4.1 steps 2-4.) -/
theorem placeOrder_total_server_computed (st : DBState)
    (req : CreateOrderRequest) (st' : DBState) (o : OrderRow)
    (rows : List OrderItemRow)
    (hfresh : idemLookup st req.idempotencyKey = none)
    (h : placeOrder st req = (st', Except.ok (o, rows))) :
    o.total_amount = (rows.map (fun r => r.price * r.quantity)).sum ∧
    ∀ r ∈ rows, ∃ p, getProductById st r.product_id = some p ∧
      r.price = p.price := by
  rcases placeOrder_split st req with ⟨e, he⟩ | ⟨o₀, hlook, ho⟩ |
    ⟨snaps, o₀, rows₀, hs, hoeq, hreq, heq⟩
  · have hh := he.symm.trans h
    exact absurd (congrArg Prod.snd hh) (by simp)
  · rw [hfresh] at hlook
    exact absurd hlook (by simp)
  · have hh := heq.symm.trans h
    simp only [Prod.mk.injEq, Except.ok.injEq] at hh
    obtain ⟨hst, ho', hr'⟩ := hh
    subst hst ho' hr'
    subst hoeq hreq
    constructor
    · exact (mkOrderItemRows_total _ snaps _).symm
    · intro r hr
      obtain ⟨s, hsm, h1, h2, h3⟩ := mkOrderItemRows_mem _ snaps _ r hr
      obtain ⟨p, hp, hprice, _⟩ := snapshotItems_ok_mem st _ snaps hs s hsm
      exact ⟨p, by rw [h1]; exact hp, by rw [h3, hprice]⟩

/-- The state after the witness order (3 widgets) committed against
`demoDB`. -/
def demoDBAfterOrder : DBState :=
  ⟨[⟨1, "alice", "alice@example.com"⟩], [⟨1, "Widget", 250, 2⟩],
   [⟨1, 1, 750, "pending"⟩], [⟨1, 1, 1, 3, 250⟩], []⟩

/-- Witness for C3: ordering 3 widgets at price 250 yields an order with
total 750 = 250 * 3, the item row carrying the product's live price. -/
theorem placeOrder_total_server_computed_witness :
    (OrderRow.mk 1 1 750 "pending").total_amount =
      (([⟨1, 1, 1, 3, 250⟩] : List OrderItemRow).map
        (fun r => r.price * r.quantity)).sum ∧
    ∀ r ∈ ([⟨1, 1, 1, 3, 250⟩] : List OrderItemRow),
      ∃ p, getProductById demoDB r.product_id = some p ∧ r.price = p.price :=
  placeOrder_total_server_computed demoDB ⟨1, [⟨1, 3⟩], none⟩
    demoDBAfterOrder ⟨1, 1, 750, "pending"⟩ [⟨1, 1, 1, 3, 250⟩] rfl rfl

/-! ## Stock non-negativity machinery -/

/-- Decrementing one product's stock does not change the list of ids. -/
theorem decrementStock_ids (prods : List ProductRow) (pid : Nat) (q : Int) :
    (decrementStock prods pid q).map (·.id) = prods.map (·.id) := by
  induction prods with
  | nil => rfl
  | cons a t ih =>
      unfold decrementStock at ih ⊢
      simp only [List.map_cons, List.cons.injEq]
      refine ⟨?_, ih⟩
      by_cases h : (a.id == pid) = true <;> simp [h]

/-- Looking the decremented product up finds the old row with its stock
reduced. -/
theorem find?_decrementStock_self (prods : List ProductRow) (pid : Nat)
    (q : Int) :
    (decrementStock prods pid q).find? (fun r => r.id == pid) =
      (prods.find? (fun r => r.id == pid)).map
        (fun p => { p with stock := p.stock - q }) := by
  unfold decrementStock
  rw [List.find?_map]
  rw [find?_pred_congr _ _ (fun r => r.id == pid)
    (by intro a _; by_cases h : a.id = pid <;> simp [h])]
  cases hfind : prods.find? (fun r => r.id == pid) with
  | none => rfl
  | some p =>
      have hid : p.id = pid := by simpa using List.find?_some hfind
      simp [hid]

/-- Looking any other product up is unaffected by the decrement. -/
theorem find?_decrementStock_other (prods : List ProductRow)
    (pid pid' : Nat) (q : Int) (hne : pid' ≠ pid) :
    (decrementStock prods pid q).find? (fun r => r.id == pid') =
      prods.find? (fun r => r.id == pid') := by
  unfold decrementStock
  rw [List.find?_map]
  rw [find?_pred_congr _ _ (fun r => r.id == pid')
    (by intro a _; by_cases h : a.id = pid <;> simp [h])]
  cases hfind : prods.find? (fun r => r.id == pid') with
  | none => rfl
  | some p =>
      have hid : p.id = pid' := by simpa using List.find?_some hfind
      simp [hid, hne]

/-- Every row of the decremented list is either the decremented row or an
untouched row of the original list. -/
theorem mem_decrementStock (prods : List ProductRow) (pid : Nat) (q : Int)
    (p' : ProductRow) (h : p' ∈ decrementStock prods pid q) :
    ∃ p ∈ prods,
      p' = if p.id == pid then { p with stock := p.stock - q } else p := by
  obtain ⟨p, hp, hpe⟩ := List.mem_map.mp h
  exact ⟨p, hp, hpe.symm⟩

/-- When product ids are unique (as `id SERIAL PRIMARY KEY` guarantees),
any member with the looked-up id is the row `find?` returns. -/
theorem find?_eq_of_mem_nodup (prods : List ProductRow) (pid : Nat)
    (p₀ p : ProductRow) (hids : (prods.map (·.id)).Nodup)
    (hfind : prods.find? (fun r => r.id == pid) = some p₀)
    (hmem : p ∈ prods) (hid : p.id = pid) : p = p₀ := by
  induction prods with
  | nil => simp at hmem
  | cons a t ih =>
      simp only [List.map_cons, List.nodup_cons] at hids
      obtain ⟨hna, hnt⟩ := hids
      by_cases ha : (a.id == pid) = true
      · simp only [List.find?, ha] at hfind
        have ha' : a.id = pid := by simpa using ha
        simp only [Option.some.injEq] at hfind
        subst hfind
        rcases List.mem_cons.mp hmem with h | h
        · exact h
        · exact absurd (List.mem_map_of_mem (·.id) h)
            (by simpa [hid, ha'] using hna)
      · have ha' : (a.id == pid) = false := by simpa using ha
        simp only [List.find?, ha'] at hfind
        rcases List.mem_cons.mp hmem with h | h
        · exact absurd (by rw [← h]; simpa using hid) ha
        · exact ih hnt hfind h

/-- Applying the decrements of a snapshot list with pairwise-distinct
product ids, each within the found product's stock, keeps every stock
non-negative. -/
theorem applyDecrements_nonneg (snaps : List (Nat × Int × Int)) :
    ∀ prods : List ProductRow,
      (prods.map (·.id)).Nodup →
      (snaps.map (·.1)).Nodup →
      (∀ s ∈ snaps, ∃ p, prods.find? (fun r => r.id == s.1) = some p ∧
        s.2.1 ≤ p.stock) →
      (∀ p ∈ prods, 0 ≤ p.stock) →
      ∀ p ∈ applyDecrements prods snaps, 0 ≤ p.stock := by
  induction snaps with
  | nil => intro prods _ _ _ hnn p hp; exact hnn p hp
  | cons s rest ih =>
      intro prods hids hsn hok hnn
      simp only [applyDecrements]
      have hsn' : (rest.map (·.1)).Nodup :=
        (List.nodup_cons.mp (by simpa using hsn)).2
      have hshead : s.1 ∉ rest.map (·.1) :=
        (List.nodup_cons.mp (by simpa using hsn)).1
      apply ih
      · rw [decrementStock_ids]; exact hids
      · exact hsn'
      · intro t ht
        obtain ⟨p, hfind, hbound⟩ := hok t (List.mem_cons_of_mem s ht)
        have hne : t.1 ≠ s.1 := by
          intro hEq
          exact hshead (hEq ▸ List.mem_map_of_mem (·.1) ht)
        rw [find?_decrementStock_other prods s.1 t.1 s.2.1 hne]
        exact ⟨p, hfind, hbound⟩
      · intro p' hp'
        obtain ⟨p, hp, hpe⟩ := mem_decrementStock prods s.1 s.2.1 p' hp'
        by_cases hidp : (p.id == s.1) = true
        · obtain ⟨p₀, hfind, hbound⟩ := hok s (List.mem_cons_self s rest)
          have hpp₀ : p = p₀ :=
            find?_eq_of_mem_nodup prods s.1 p₀ p hids hfind hp (by simpa using hidp)
          have h0 : 0 ≤ p.stock := hnn p hp
          rw [hpe, if_pos hidp]
          have : s.2.1 ≤ p.stock := hpp₀ ▸ hbound
          simp only
          omega
        · rw [hpe, if_neg hidp]
          exact hnn p hp

/-- The product ids of a merged item list are pairwise distinct. -/
theorem mergeItems_nodup (items : List OrderItemInput) :
    ((mergeItems items).map (·.product_id)).Nodup := by
  unfold mergeItems
  rw [List.map_map]
  have hcomp : ((fun i => OrderItemInput.product_id i) ∘
      (fun pid => (⟨pid, sumQty items pid⟩ : OrderItemInput))) = id := rfl
  rw [hcomp, List.map_id]
  exact List.nodup_dedup _

/-- Claim C2, amended: the order workflow preserves the `stock >= 0`
invariant — from any state with unique product ids (as the PRIMARY KEY
guarantees) and all stocks non-negative, `placeOrder` leaves every
product's stock non-negative, every decrement having been checked against
the live stock first.  (The workflow half is modelled from spec §4.1;
product creation and update, by contrast, persist the client-supplied
stock unchecked — see the counterexample.) -/
theorem placeOrder_preserves_stock_nonneg (st : DBState)
    (req : CreateOrderRequest)
    (hids : (st.products.map (·.id)).Nodup)
    (hnn : ∀ p ∈ st.products, 0 ≤ p.stock) :
    ∀ p ∈ (placeOrder st req).1.products, 0 ≤ p.stock := by
  rcases placeOrder_split st req with ⟨e, he⟩ | ⟨o, _, ho⟩ |
    ⟨snaps, o, rows, hs, _, _, heq⟩
  · rw [he]; exact hnn
  · rw [ho]; exact hnn
  · rw [heq]
    unfold commitState
    apply applyDecrements_nonneg snaps st.products hids ?_ ?_ hnn
    · rw [snapshotItems_fst st (mergeItems req.items) snaps hs]
      exact mergeItems_nodup req.items
    · intro s hsm
      obtain ⟨p, hp, _, hbound⟩ := snapshotItems_ok_mem st _ snaps hs s hsm
      exact ⟨p, hp, hbound⟩

/-- Witness for C2 (amended): ordering the full stock of 5 widgets leaves
the persisted widget row at stock 0, which is still non-negative. -/
theorem placeOrder_preserves_stock_nonneg_witness :
    0 ≤ (ProductRow.mk 1 "Widget" 250 0).stock :=
  placeOrder_preserves_stock_nonneg demoDB ⟨1, [⟨1, 5⟩], none⟩
    (by decide) (by decide) ⟨1, "Widget", 250, 0⟩ (by decide)

/-! ## Serialized concurrency property -/

/-- Merging a one-line request changes nothing. -/
theorem mergeItems_singleton (pid : Nat) (q : Int) :
    mergeItems [⟨pid, q⟩] = [⟨pid, q⟩] := by
  unfold mergeItems
  have h1 : (([⟨pid, q⟩] : List OrderItemInput).map (·.product_id)) = [pid] := rfl
  rw [h1, List.dedup_cons_of_not_mem (List.not_mem_nil pid), List.dedup_nil]
  simp [sumQty]

/-- A unit-quantity order against an out-of-stock product fails with
`insufficientStockError`, leaving the state untouched. -/
theorem placeOrder_single_insufficient (st : DBState) (uid pid : Nat)
    (p : ProductRow) (hu : userExists st uid = true)
    (hp : getProductById st pid = some p) (hstock : p.stock ≤ 0) :
    placeOrder st (singleItemReq uid pid) =
      (st, Except.error (.insufficientStockError pid p.stock)) := by
  have hsnap : snapshotItems st [⟨pid, 1⟩] =
      Except.error (.insufficientStockError pid p.stock) := by
    unfold snapshotItems
    dsimp only
    simp only [hp]
    rw [if_pos (by omega)]
  unfold placeOrder singleItemReq
  rw [if_neg (by simp), if_neg (by simp), if_neg (by simp [hu])]
  simp only [show idemLookup st none = none from rfl, mergeItems_singleton, hsnap]

/-- The state one successful unit-quantity order leaves behind. -/
def stepState (st : DBState) (uid pid : Nat) (p : ProductRow) : DBState :=
  { st with
      products := decrementStock st.products pid 1,
      orders := st.orders ++
        [⟨nextId (st.orders.map (·.id)), uid, p.price * 1, "pending"⟩],
      order_items := st.order_items ++
        [⟨nextId (st.order_items.map (·.id)), nextId (st.orders.map (·.id)),
          pid, 1, p.price⟩] }

/-- A unit-quantity order against an in-stock product succeeds, committing
the order row, its item row and the single stock decrement. -/
theorem placeOrder_single_success (st : DBState) (uid pid : Nat)
    (p : ProductRow) (hu : userExists st uid = true)
    (hp : getProductById st pid = some p) (hstock : 1 ≤ p.stock) :
    placeOrder st (singleItemReq uid pid) =
      (stepState st uid pid p,
       Except.ok
         (⟨nextId (st.orders.map (·.id)), uid, p.price * 1, "pending"⟩,
          [⟨nextId (st.order_items.map (·.id)), nextId (st.orders.map (·.id)),
            pid, 1, p.price⟩])) := by
  have hsnap : snapshotItems st [⟨pid, 1⟩] = Except.ok [(pid, 1, p.price)] := by
    unfold snapshotItems
    dsimp only
    simp only [hp]
    rw [if_neg (by omega)]
    rfl
  unfold placeOrder singleItemReq stepState
  rw [if_neg (by simp), if_neg (by simp), if_neg (by simp [hu])]
  simp only [show idemLookup st none = none from rfl, mergeItems_singleton, hsnap]
  simp [applyDecrements, totalAmount, mkOrderItemRows]

/-- Claim C7: under the spec's §5 serialization guarantee (row locks held
to commit make concurrent placements take effect in sequence), N
unit-quantity orders against one product with stock S yield exactly
`min N S` successes, `N - min N S` `insufficientStockError` failures and
nothing else, and the product's final stock is `S - min N S`.  (Modelled
from spec §4.1/§5; the workflow is absent from the repository source.) -/
theorem concurrent_unit_orders (N S uid pid : Nat) (st : DBState)
    (p : ProductRow)
    (hu : userExists st uid = true)
    (hp : getProductById st pid = some p)
    (hS : p.stock = (S : Int)) :
    ((runOrders st (List.replicate N (singleItemReq uid pid))).2.filter
        isOk).length = min N S ∧
    ((runOrders st (List.replicate N (singleItemReq uid pid))).2.filter
        isInsufficient).length = N - min N S ∧
    (∀ r ∈ (runOrders st (List.replicate N (singleItemReq uid pid))).2,
        isOk r = true ∨ isInsufficient r = true) ∧
    ∃ p', getProductById
        (runOrders st (List.replicate N (singleItemReq uid pid))).1 pid
          = some p' ∧ p'.stock = ((S - min N S : Nat) : Int) := by
  induction N generalizing st S p with
  | zero =>
      refine ⟨by simp [runOrders], by simp [runOrders],
        by simp [runOrders], p, ?_, ?_⟩
      · simpa [runOrders] using hp
      · simpa using hS
  | succ n ih =>
      rcases Nat.eq_zero_or_pos S with hS0 | hSpos
      · subst hS0
        have hstep := placeOrder_single_insufficient st uid pid p hu hp
          (by omega)
        obtain ⟨h1, h2, h3, p', hp', hs'⟩ := ih 0 st p hu hp hS
        refine ⟨?_, ?_, ?_, p', ?_, ?_⟩
        · simp only [List.replicate_succ, runOrders, hstep]
          simpa [isOk] using h1
        · simp only [List.replicate_succ, runOrders, hstep]
          simp only [Nat.min_zero, Nat.sub_zero] at h2 ⊢
          simpa [isInsufficient] using h2
        · simp only [List.replicate_succ, runOrders, hstep]
          intro r hr
          rcases List.mem_cons.mp hr with h | h
          · subst h; exact Or.inr rfl
          · exact h3 r h
        · simp only [List.replicate_succ, runOrders, hstep]
          exact hp'
        · simpa using hs'
      · obtain ⟨s, rfl⟩ : ∃ s, S = s + 1 := ⟨S - 1, by omega⟩
        have hstep := placeOrder_single_success st uid pid p hu hp (by omega)
        have hu₂ : userExists (stepState st uid pid p) uid = true := hu
        have hp₂ : getProductById (stepState st uid pid p) pid =
            some { p with stock := p.stock - 1 } := by
          show (decrementStock st.products pid 1).find? (fun r => r.id == pid) = _
          rw [find?_decrementStock_self]
          rw [show st.products.find? (fun r => r.id == pid) = some p from hp]
          rfl
        have hS₂ : ({ p with stock := p.stock - 1 } : ProductRow).stock
            = (s : Int) := by
          show p.stock - 1 = (s : Int)
          rw [hS]
          push_cast
          ring
        obtain ⟨h1, h2, h3, p', hp', hs'⟩ :=
          ih s (stepState st uid pid p) { p with stock := p.stock - 1 }
            hu₂ hp₂ hS₂
        refine ⟨?_, ?_, ?_, p', ?_, ?_⟩
        · simp only [List.replicate_succ, runOrders, hstep]
          simp only [Nat.succ_min_succ]
          simpa [isOk] using h1
        · simp only [List.replicate_succ, runOrders, hstep]
          simp only [Nat.succ_min_succ, Nat.succ_sub_succ]
          simpa [isInsufficient] using h2
        · simp only [List.replicate_succ, runOrders, hstep]
          intro r hr
          rcases List.mem_cons.mp hr with h | h
          · subst h; exact Or.inl rfl
          · exact h3 r h
        · simp only [List.replicate_succ, runOrders, hstep]
          exact hp'
        · rw [Nat.succ_min_succ, Nat.succ_sub_succ]
          exact hs'

/-- Witness for C7: seven concurrent unit orders against the five-stock
widget of `demoDB` — five succeed, two fail with insufficient stock, and
the final stock is zero. -/
theorem concurrent_unit_orders_witness :
    ((runOrders demoDB (List.replicate 7 (singleItemReq 1 1))).2.filter
        isOk).length = min 7 5 ∧
    ((runOrders demoDB (List.replicate 7 (singleItemReq 1 1))).2.filter
        isInsufficient).length = 7 - min 7 5 ∧
    (∀ r ∈ (runOrders demoDB (List.replicate 7 (singleItemReq 1 1))).2,
        isOk r = true ∨ isInsufficient r = true) ∧
    ∃ p', getProductById
        (runOrders demoDB (List.replicate 7 (singleItemReq 1 1))).1 1
          = some p' ∧ p'.stock = ((5 - min 7 5 : Nat) : Int) :=
  concurrent_unit_orders 7 5 1 1 demoDB ⟨1, "Widget", 250, 5⟩
    (by decide) (by decide) (by decide)

end OMS
